import Mathlib

/-!
Verification development for the XRSS feed fetch-cache-translate pipeline
(`feeds/views.py`).  The Python functions are shallowly embedded as pure Lean
functions: the filesystem is an explicit association list from paths to JSON
values, the network, the feed parser and the translator are explicit
collaborator parameters, and each Python exception path is an `Except` error.
-/

set_option autoImplicit false

namespace XRSS

/-- JSON values, which double as the Python values flowing through the
pipeline (`None` is `null`, Python dicts are `obj` association lists as
produced by `json.load`). -/
inductive Json where
  | null
  | bool (b : Bool)
  | num (n : Int)
  | str (s : String)
  | arr (xs : List Json)
  | obj (kvs : List (String × Json))
deriving Repr

/-- First-match lookup in an association list (Python dict access: keys of a
dict produced by `json.load` are unique, so first match is the match). -/
def alGet {α : Type} : List (String × α) → String → Option α
  | [], _ => none
  | (k', v) :: rest, k => if k' = k then some v else alGet rest k

/-- `d[k] = v` on an association list: replace the first binding of `k`,
or append a new binding (Python dict item assignment). -/
def alSet {α : Type} : List (String × α) → String → α → List (String × α)
  | [], k, v => [(k, v)]
  | (k', v') :: rest, k, v =>
      if k' = k then (k, v) :: rest else (k', v') :: alSet rest k v

/-- `d1.update(d2)`: set every binding of `d2` into `d1`, in order. -/
def alUpdate {α : Type} (d1 d2 : List (String × α)) : List (String × α) :=
  d2.foldl (fun acc kv => alSet acc kv.1 kv.2) d1

/-- Python truthiness of the values the pipeline tests with `if`. -/
def truthy : Json → Bool
  | .null => false
  | .bool b => b
  | .num n => n != 0
  | .str s => !s.isEmpty
  | .arr xs => !xs.isEmpty
  | .obj kvs => !kvs.isEmpty

/-! ### The category regex

`get_category_from_url` runs
`re.match(r'https://www.reddit.com/r/(.+)\.rss', feed_url)`.
`re.match` anchors at the start only; the unescaped dots in
`www.reddit.com` match any non-newline character, and `(.+)` is a greedy
run of non-newline characters followed by the literal `.rss`. -/

/-- Consume an exact literal from the head of the input. -/
def dropLit : List Char → List Char → Option (List Char)
  | [], cs => some cs
  | _ :: _, [] => none
  | p :: ps, c :: cs => if c = p then dropLit ps cs else none

/-- Consume one character matched by the regex wildcard `.`
(any character except a newline). -/
def dropAny : List Char → Option (List Char)
  | [] => none
  | c :: cs => if c = '\n' then none else some cs

/-- Match the fixed part `https://www.reddit.com/r/` of the pattern, the two
dots being wildcards, and return the rest of the input. -/
def dropUrlHead (cs : List Char) : Option (List Char) := do
  let cs ← dropLit "https://www".toList cs
  let cs ← dropAny cs
  let cs ← dropLit "reddit".toList cs
  let cs ← dropAny cs
  dropLit "com/r/".toList cs

/-- Whether splitting the tail at `k` satisfies `(.+)\.rss`: a non-empty
newline-free group of length `k` followed immediately by the literal
`.rss` (the overall match is unanchored at the end, so anything may
follow). -/
def groupOk (cs : List Char) (k : Nat) : Bool :=
  decide (1 ≤ k) && (cs.take k).all (fun c => c ≠ '\n')
    && decide ((cs.drop k).take 4 = ".rss".toList)

/-- The greedy group: the longest `k` accepted by `groupOk`. -/
def greedyGroup (cs : List Char) : Option (List Char) :=
  ((List.range (cs.length + 1)).reverse.find? (groupOk cs)).map (cs.take ·)

/-- The whole regex: `re.match` result as the captured group, `none` when
the pattern does not match. -/
def matchCategory (url : String) : Option String :=
  match dropUrlHead url.toList with
  | none => none
  | some tail => (greedyGroup tail).map (fun g => ⟨g⟩)

/-- Error taxonomy of the pipeline, one constructor per Python exception
path in `feeds/views.py`. -/
inductive Err where
  /-- `match.group(1)` on a failed match raises `AttributeError`
  (`'NoneType' object has no attribute 'group'`): the URL does not fit the
  category-extraction pattern. -/
  | configurationError
  /-- `config.get(...)` on a JSON document whose top level is not an object
  raises `AttributeError`: the persisted record is structurally invalid. -/
  | persistedStateError
  /-- `datetime.datetime.fromisoformat` raises `ValueError` on an
  unparseable timestamp. -/
  | parseError
  /-- `post_dict[label] = ...` on a non-dict raises `TypeError`. -/
  | typeError
deriving Repr, DecidableEq

/-- `get_category_from_url`: capture group 1, raising when the match
fails. -/
def get_category_from_url (feed_url : String) : Except Err String :=
  match matchCategory feed_url with
  | some c => .ok c
  | none => .error .configurationError

/-- `get_config_path`: `Data/<category>.json`. -/
def get_config_path (feed_url : String) : Except Err String :=
  (get_category_from_url feed_url).map (fun c => "Data/" ++ c ++ ".json")

/-- The filesystem: paths mapped to the JSON documents stored there. -/
abbrev FS : Type := List (String × Json)

/-- `load_config`: missing file yields `({}, (0, 0))`; otherwise the record
is read with `config.get("last_modified")`, `config.get("etag")` and
`config.get("post_dict", {})`. -/
def load_config (fs : FS) (feed_url : String) : Except Err (Json × (Json × Json)) := do
  let path ← get_config_path feed_url
  match alGet fs path with
  | none => pure (.obj [], (.num 0, .num 0))
  | some (.obj kvs) =>
      pure ((alGet kvs "post_dict").getD (.obj []),
        ((alGet kvs "last_modified").getD .null, (alGet kvs "etag").getD .null))
  | some _ => throw .persistedStateError

/-- `save_config`: write the full replacement record at the derived path. -/
def save_config (fs : FS) (feed_url : String) (last_modified etag post_dict : Json) :
    Except Err FS := do
  let path ← get_config_path feed_url
  pure (alSet fs path
    (.obj [("last_modified", last_modified), ("etag", etag), ("post_dict", post_dict)]))

/-! ### Conditional fetch -/

/-- An HTTP response, as the code observes it: the status, the decoded body
text, and the `Last-Modified` / `ETag` response headers
(`headers.get` yields `None` — `null` — when absent). -/
structure Response where
  status : Nat
  body : String
  lastModified : Json
  etag : Json
deriving Repr

/-- The network collaborator: for a URL and the request headers actually
sent, the response the server gives. -/
abbrev Net : Type := String → List (String × Json) → Response

/-- The request headers `fetch_feed_data` builds: `If-Modified-Since` and
`If-None-Match` are set only when the corresponding validator is truthy. -/
def condHeaders (last_modified etag : Json) : List (String × Json) :=
  (if truthy last_modified then [("If-Modified-Since", last_modified)] else [])
    ++ (if truthy etag then [("If-None-Match", etag)] else [])

/-- What `fetch_feed_data` hands back as its first component: the empty
tuple `()` on a 304, otherwise the response body text. -/
inductive FetchData where
  | tup
  | body (s : String)
deriving Repr, DecidableEq

/-- Python truthiness of the fetched data: `()` is falsy, a string is
truthy iff non-empty. -/
def truthyFD : FetchData → Bool
  | .tup => false
  | .body s => !s.isEmpty

/-- `fetch_feed_data`: issue the conditional GET; on 304 return
`(), last_modified, etag` unchanged, on any other status return the body
and the response validators (no status check is performed). -/
def fetch_feed_data (net : Net) (feed_url : String) (last_modified etag : Json) :
    FetchData × Json × Json :=
  let resp := net feed_url (condHeaders last_modified etag)
  if resp.status = 304 then (.tup, last_modified, etag)
  else (.body resp.body, resp.lastModified, resp.etag)

/-! ### Timestamps: `datetime.datetime.fromisoformat` and `strftime` -/

/-- The fields of a parsed datetime that `strftime("%Y/%m/%d %H:%M:%S")`
reads (an attached UTC offset changes none of them: `strftime` formats the
stored wall-clock fields). -/
structure PyDateTime where
  year : Nat
  month : Nat
  day : Nat
  hour : Nat
  minute : Nat
  second : Nat
deriving Repr, DecidableEq

/-- Read exactly `n` decimal digits, most significant first. -/
def readDigits : Nat → Nat → List Char → Option (Nat × List Char)
  | 0, acc, cs => some (acc, cs)
  | _ + 1, _, [] => none
  | n + 1, acc, c :: cs =>
      if c.isDigit then readDigits n (acc * 10 + (c.toNat - 48)) cs else none

/-- Consume one expected character. -/
def expectChar : Char → List Char → Option (List Char)
  | _, [] => none
  | e, c :: cs => if c = e then some cs else none

/-- Gregorian leap year. -/
def isLeap (y : Nat) : Bool :=
  y % 4 = 0 && (y % 100 != 0 || y % 400 = 0)

/-- Days in a month, as `datetime` validates them. -/
def daysInMonth (y m : Nat) : Nat :=
  if m = 2 then (if isLeap y then 29 else 28)
  else if m = 4 || m = 6 || m = 9 || m = 11 then 30
  else 31

/-- Consume a fractional-seconds part `[.,]d+` if present. -/
def dropFrac : List Char → Option (List Char)
  | [] => some []
  | c :: cs =>
      if c = '.' || c = ',' then
        match cs.span (·.isDigit) with
        | ([], _) => none
        | (_ :: _, rest) => some rest
      else some (c :: cs)

/-- Consume a UTC-offset suffix if present: `Z`, `z`, or `±HH[:MM[:SS]]`
with minutes and seconds below 60. -/
def dropOffset : List Char → Option (List Char)
  | [] => some []
  | c :: cs =>
      if c = 'Z' || c = 'z' then some cs
      else if c = '+' || c = '-' then do
        let (oh, cs) ← readDigits 2 0 cs
        if oh ≥ 24 then none else
        match cs with
        | ':' :: cs => do
            let (om, cs) ← readDigits 2 0 cs
            if om ≥ 60 then none else
            match cs with
            | ':' :: cs => do
                let (os, cs) ← readDigits 2 0 cs
                if os ≥ 60 then none else some cs
            | cs => some cs
        | cs => some cs
      else none

/-- The time-of-day part `HH[:MM[:SS[frac]]][offset]`, which must consume
the whole rest of the string. -/
def parseTime (cs : List Char) : Option (Nat × Nat × Nat) := do
  let (h, cs) ← readDigits 2 0 cs
  if h ≥ 24 then none else
  match cs with
  | ':' :: cs => do
      let (mi, cs) ← readDigits 2 0 cs
      if mi ≥ 60 then none else
      match cs with
      | ':' :: cs => do
          let (se, cs) ← readDigits 2 0 cs
          if se ≥ 60 then none else
          let cs ← dropFrac cs
          let cs ← dropOffset cs
          if cs.isEmpty then some (h, mi, se) else none
      | cs => do
          let cs ← dropOffset cs
          if cs.isEmpty then some (h, mi, 0) else none
  | cs => do
      let cs ← dropOffset cs
      if cs.isEmpty then some (h, 0, 0) else none

/-- Model of `datetime.datetime.fromisoformat`: an ISO-8601 date
`YYYY-MM-DD`, optionally followed by a single separator character and a
time of day with optional fraction and UTC offset.  `none` models the
`ValueError` raised on anything unparseable. -/
def fromisoformat (s : String) : Option PyDateTime := do
  let cs := s.toList
  let (y, cs) ← readDigits 4 0 cs
  let cs ← expectChar '-' cs
  let (mo, cs) ← readDigits 2 0 cs
  let cs ← expectChar '-' cs
  let (d, cs) ← readDigits 2 0 cs
  if mo < 1 || 12 < mo then none else
  if d < 1 || daysInMonth y mo < d then none else
  match cs with
  | [] => some ⟨y, mo, d, 0, 0, 0⟩
  | _sep :: cs => do
      let (h, mi, se) ← parseTime cs
      some ⟨y, mo, d, h, mi, se⟩

/-- Zero-pad a number to two digits (`strftime` `%m %d %H %M %S`). -/
def pad2 (n : Nat) : String :=
  if n < 10 then "0" ++ toString n else toString n

/-- Zero-pad a year to four digits (`strftime` `%Y`). -/
def pad4 (n : Nat) : String :=
  if n < 10 then "000" ++ toString n
  else if n < 100 then "00" ++ toString n
  else if n < 1000 then "0" ++ toString n
  else toString n

/-- `dt.strftime("%Y/%m/%d %H:%M:%S")`. -/
def pyStrftime (dt : PyDateTime) : String :=
  pad4 dt.year ++ "/" ++ pad2 dt.month ++ "/" ++ pad2 dt.day ++ " "
    ++ pad2 dt.hour ++ ":" ++ pad2 dt.minute ++ ":" ++ pad2 dt.second

/-! ### The feed-parser and translator collaborators -/

/-- A parsed feed item as `feedparser` exposes it: `title` may be any
value (the code checks `isinstance(title, str)`), `updated` is a string
handed to `fromisoformat`, `link` is passed through. -/
structure Item where
  title : Json
  updated : String
  link : Json
deriving Repr

/-- A parsed feed: the optional feed-level `category` attribute (absence
raises `AttributeError`, which the code catches) and the ordered item
list. -/
structure ParsedFeed where
  category : Option String
  entries : List Item
deriving Repr

/-- The `feedparser.parse` collaborator: body text to parsed feed. -/
abbrev Parser : Type := String → ParsedFeed

/-- The translation collaborator
(`translator.translate(text, "zh-CN").text`): `none` models any exception
raised while translating or reading `.text`. -/
abbrev Translate : Type := String → Option String

/-- The feed label: `"r/" + feed_data.feed.category`, or `"N/A"` when the
`category` attribute is missing. -/
def feedLabel (pf : ParsedFeed) : String :=
  match pf.category with
  | some c => "r/" ++ c
  | none => "N/A"

/-- Build one entry dict from one item, also counting translation calls:
a string title is translated (falling back to the original on failure), a
non-string title is passed through untouched with no translation attempt;
then the `updated` timestamp is parsed (`ValueError` when unparseable) and
reformatted. -/
def build_entry (translate : Translate) (e : Item) : Except Err Json × Nat :=
  let (zh_title, calls) :=
    match e.title with
    | .str s =>
        (match translate s with
         | some t => Json.str t
         | none => Json.str s, 1)
    | other => (other, 0)
  match fromisoformat e.updated with
  | none => (.error .parseError, calls)
  | some dt =>
      (.ok (.obj [("title", zh_title), ("updated", .str (pyStrftime dt)),
        ("link", e.link)]), calls)

/-- The entry-building loop of `get_feed_data`: items in source order,
stopping at the first fatal timestamp error; the second component counts
translation calls made before the loop stopped. -/
def build_post_list (translate : Translate) : List Item → Except Err (List Json) × Nat
  | [] => (.ok [], 0)
  | e :: rest =>
      let (r, n) := build_entry translate e
      match r with
      | .error err => (.error err, n)
      | .ok j =>
          let (r2, n2) := build_post_list translate rest
          (r2.map (j :: ·), n + n2)

/-- `post_dict[label] = value`: item assignment on the loaded value, a
`TypeError` when it is not a dict. -/
def pySetItem : Json → String → Json → Except Err Json
  | .obj kvs, k, v => .ok (.obj (alSet kvs k v))
  | _, _, _ => .error .typeError

/-- Which effects one `get_feed_data` run performed. -/
structure Trace where
  fetched : Bool
  parsed : Bool
  translated : Nat
  saved : Bool
deriving Repr, DecidableEq

/-- The outcome of one `get_feed_data` run: the returned value or raised
error, the filesystem afterwards, and the effect trace. -/
structure SyncOut where
  result : Except Err Json
  fs : FS
  trace : Trace

/-- `get_feed_data`, one feed sync: load the record; return a truthy
cached `post_dict` at once; otherwise fetch conditionally, return the
cached value on 304 or an empty body, else parse, build the labelled
entry list, store it in `post_dict`, persist, and return. -/
def get_feed_data (net : Net) (parse : Parser) (translate : Translate)
    (fs : FS) (feed_url : String) : SyncOut :=
  match load_config fs feed_url with
  | .error e => ⟨.error e, fs, ⟨false, false, 0, false⟩⟩
  | .ok (post_dict, last_modified, etag) =>
    if truthy post_dict then ⟨.ok post_dict, fs, ⟨false, false, 0, false⟩⟩
    else
      let (feed_data, new_last_modified, new_etag) :=
        fetch_feed_data net feed_url last_modified etag
      match feed_data with
      | .tup => ⟨.ok post_dict, fs, ⟨true, false, 0, false⟩⟩
      | .body s =>
        if s.isEmpty then ⟨.ok post_dict, fs, ⟨true, false, 0, false⟩⟩
        else
          let pf := parse s
          let (plr, calls) := build_post_list translate pf.entries
          match plr with
          | .error e => ⟨.error e, fs, ⟨true, true, calls, false⟩⟩
          | .ok post_list =>
            match pySetItem post_dict (feedLabel pf) (.arr post_list) with
            | .error e => ⟨.error e, fs, ⟨true, true, calls, false⟩⟩
            | .ok post_dict' =>
              match save_config fs feed_url new_last_modified new_etag post_dict' with
              | .error e => ⟨.error e, fs, ⟨true, true, calls, false⟩⟩
              | .ok fs' => ⟨.ok post_dict', fs', ⟨true, true, calls, true⟩⟩

/-- Run the syncs of `asyncio.gather` one after the other (cooperative
scheduling linearised), collecting each feed's result or captured
exception (`return_exceptions=True`) in URL order. -/
def runSyncs (net : Net) (parse : Parser) (translate : Translate) :
    FS → List String → List (Except Err Json) × FS
  | fs, [] => ([], fs)
  | fs, url :: urls =>
      let o := get_feed_data net parse translate fs url
      let (rs, fs') := runSyncs net parse translate o.fs urls
      (o.result :: rs, fs')

/-- The body of the merge loop of `get_all_feeds`:
`content_dict.update(result)` when the result is a dict
(`isinstance(result, dict)`); exceptions and non-dict results leave
`content_dict` alone. -/
def mergeStep (acc : List (String × Json)) (r : Except Err Json) :
    List (String × Json) :=
  match r with
  | .ok (.obj kvs) => alUpdate acc kvs
  | _ => acc

/-- The merge loop of `get_all_feeds`, starting from `content_dict = {}`. -/
def mergeResults (rs : List (Except Err Json)) : List (String × Json) :=
  rs.foldl mergeStep []

/-- `get_all_feeds`: gather all syncs with exceptions captured, then merge
the dict results into one `content_dict`. -/
def get_all_feeds (net : Net) (parse : Parser) (translate : Translate)
    (fs : FS) (urls : List String) : Json × FS :=
  let (rs, fs') := runSyncs net parse translate fs urls
  (.obj (mergeResults rs), fs')

/-! ### Association-list lemmas -/

theorem alGet_alSet {α : Type} (l : List (String × α)) (k k' : String) (v : α) :
    alGet (alSet l k v) k' = if k' = k then some v else alGet l k' := by
  induction l with
  | nil =>
      by_cases h : k = k'
      · subst h; simp [alGet, alSet]
      · simp [alGet, alSet, h, Ne.symm h]
  | cons hd tl ih =>
      obtain ⟨k1, v1⟩ := hd
      by_cases h1 : k1 = k
      · subst h1
        by_cases h2 : k' = k1
        · subst h2; simp [alGet, alSet]
        · simp [alGet, alSet, h2, Ne.symm h2]
      · by_cases h2 : k1 = k'
        · subst h2
          simp [alGet, alSet, h1, Ne.symm h1]
        · simp [alGet, alSet, h1, h2, ih]

theorem alGet_append {α : Type} (l1 l2 : List (String × α)) (k : String) :
    alGet (l1 ++ l2) k =
      match alGet l1 k with
      | some v => some v
      | none => alGet l2 k := by
  induction l1 with
  | nil => simp [alGet]
  | cons hd tl ih =>
      obtain ⟨k1, v1⟩ := hd
      by_cases h : k1 = k <;> simp [alGet, h, ih]

/-! ### `Except` reduction lemmas for the do-notation -/

theorem exceptBind_ok {ε α β : Type} (a : α) (f : α → Except ε β) :
    ((Except.ok a : Except ε α) >>= f) = f a := rfl

theorem exceptBind_error {ε α β : Type} (e : ε) (f : α → Except ε β) :
    ((Except.error e : Except ε α) >>= f) = .error e := rfl

theorem exceptMap_error {ε α β : Type} (e : ε) (f : α → β) :
    Except.map f (Except.error e : Except ε α) = .error e := rfl

theorem exceptPure {ε α : Type} (a : α) :
    (pure a : Except ε α) = .ok a := rfl

/-! ### C1: cache-hit short-circuit -/

/-- **C1**: when the persisted record loads with a non-empty
`entriesByLabel` mapping, `get_feed_data` returns exactly that mapping
unchanged, issues no network fetch, performs no parse or translation, and
does not write the cache record. -/
theorem xrss_c1_cache_hit_short_circuit (net : Net) (parse : Parser)
    (translate : Translate) (fs : FS) (url : String)
    (kvs : List (String × Json)) (lm etag : Json)
    (hload : load_config fs url = .ok (.obj kvs, (lm, etag)))
    (hne : kvs ≠ []) :
    get_feed_data net parse translate fs url
      = ⟨.ok (.obj kvs), fs, ⟨false, false, 0, false⟩⟩ := by
  have htr : truthy (.obj kvs) = true := by
    cases kvs with
    | nil => exact absurd rfl hne
    | cons a l => simp [truthy]
  unfold get_feed_data
  rw [hload]
  simp [htr]

/-- Witness for C1: a concrete warm cache for `r/LifeProTips` is returned
as-is with an all-quiet trace. -/
theorem xrss_c1_witness :
    get_feed_data (fun _ _ => ⟨200, "body", .null, .null⟩) (fun _ => ⟨none, []⟩)
      (fun _ => none)
      [("Data/LifeProTips.json", Json.obj [("last_modified", Json.str "lmv"),
        ("etag", Json.str "etv"),
        ("post_dict", Json.obj [("r/LifeProTips", Json.arr [Json.str "cached"])])])]
      "https://www.reddit.com/r/LifeProTips.rss"
      = ⟨.ok (.obj [("r/LifeProTips", Json.arr [Json.str "cached"])]),
         [("Data/LifeProTips.json", Json.obj [("last_modified", Json.str "lmv"),
           ("etag", Json.str "etv"),
           ("post_dict", Json.obj [("r/LifeProTips", Json.arr [Json.str "cached"])])])],
         ⟨false, false, 0, false⟩⟩ :=
  xrss_c1_cache_hit_short_circuit _ _ _ _ _ _ _ _ (by rfl) (by simp)

/-! ### C2: non-304, non-2xx responses -/

/-- **C2 counterexample**: against the claim, a 404 response is not
surfaced as a fetch failure: `fetch_feed_data` hands the 404 body back as
feed content, and the sync goes on to parse it, translate, persist and
return it successfully. -/
theorem xrss_c2_counterexample :
    fetch_feed_data (fun _ _ => ⟨404, "<html>err</html>", .null, .null⟩)
      "https://www.reddit.com/r/LifeProTips.rss" (.num 0) (.num 0)
      = (.body "<html>err</html>", .null, .null)
    ∧ (get_feed_data (fun _ _ => ⟨404, "<html>err</html>", .null, .null⟩)
        (fun _ => ⟨some "LifeProTips",
          [⟨.str "t", "2024-01-05T13:04:05+00:00", .str "L"⟩]⟩)
        (fun _ => none) [] "https://www.reddit.com/r/LifeProTips.rss").result
      = .ok (.obj [("r/LifeProTips", .arr [.obj [("title", .str "t"),
          ("updated", .str "2024/01/05 13:04:05"), ("link", .str "L")]])]) :=
  ⟨rfl, rfl⟩

/-- **C2 amended**: for every response whose status is not 304 — whatever
that status is, 404 and 500 included — `fetch_feed_data` performs no
status check and returns the response body as feed content, paired with
the response validators; no fetch failure is raised. -/
theorem xrss_c2_no_status_check (net : Net) (url : String) (lm etag : Json)
    (h : (net url (condHeaders lm etag)).status ≠ 304) :
    fetch_feed_data net url lm etag
      = (.body (net url (condHeaders lm etag)).body,
         (net url (condHeaders lm etag)).lastModified,
         (net url (condHeaders lm etag)).etag) := by
  unfold fetch_feed_data
  simp [h]

/-- Witness for the amended C2 at a concrete 500 response. -/
theorem xrss_c2_witness :
    fetch_feed_data (fun _ _ => ⟨500, "oops", .str "LM2", .str "ET2"⟩)
      "u" (.num 0) (.num 0)
      = (.body "oops", .str "LM2", .str "ET2") :=
  xrss_c2_no_status_check _ _ _ _ (by decide)

/-! ### C3: loading a missing cache file -/

/-- **C3 counterexample**: against the claim, loading a feed whose cache
file does not exist yields the integer sentinels `(0, 0)` for the
validators, not the absent value `None`. -/
theorem xrss_c3_counterexample :
    load_config [] "https://www.reddit.com/r/LifeProTips.rss"
      = .ok (.obj [], (.num 0, .num 0))
    ∧ Json.num 0 ≠ Json.null :=
  ⟨rfl, fun h => Json.noConfusion h⟩

/-- **C3 amended**: when the derived cache file does not exist,
`load_config` raises no error and returns the empty mapping together with
the falsy sentinel validators `(0, 0)`; being falsy, these behave as
absent downstream — no conditional request header is built from them. -/
theorem xrss_c3_load_missing_file (fs : FS) (url path : String)
    (hpath : get_config_path url = .ok path)
    (hmiss : alGet fs path = none) :
    load_config fs url = .ok (.obj [], (.num 0, .num 0))
    ∧ condHeaders (.num 0) (.num 0) = [] := by
  refine ⟨?_, rfl⟩
  simp [load_config, hpath, hmiss, exceptBind_ok, exceptPure]

/-- Witness for the amended C3 on the empty filesystem. -/
theorem xrss_c3_witness :
    load_config [] "https://www.reddit.com/r/LifeProTips.rss"
      = .ok (.obj [], (.num 0, .num 0))
    ∧ condHeaders (.num 0) (.num 0) = [] :=
  xrss_c3_load_missing_file [] "https://www.reddit.com/r/LifeProTips.rss"
    "Data/LifeProTips.json" (by rfl) (by rfl)

/-! ### C4: 304 Not Modified -/

/-- **C4**: on a 304 the fetch carries the very validators it was given
back unchanged, and the sync returns the previously loaded (possibly
empty) mapping with no parse call, no translation call, no persist call
and an untouched filesystem. -/
theorem xrss_c4_not_modified (net : Net) (parse : Parser) (translate : Translate)
    (fs : FS) (url : String) (pd lm etag : Json)
    (hload : load_config fs url = .ok (pd, (lm, etag)))
    (hcold : truthy pd = false)
    (h304 : (net url (condHeaders lm etag)).status = 304) :
    fetch_feed_data net url lm etag = (.tup, lm, etag)
    ∧ get_feed_data net parse translate fs url
        = ⟨.ok pd, fs, ⟨true, false, 0, false⟩⟩ := by
  have hf : fetch_feed_data net url lm etag = (.tup, lm, etag) := by
    unfold fetch_feed_data
    simp [h304]
  refine ⟨hf, ?_⟩
  unfold get_feed_data
  rw [hload]
  simp [hcold, hf]

/-- Witness for C4: a cold cache plus a 304 server. -/
theorem xrss_c4_witness :
    fetch_feed_data (fun _ _ => ⟨304, "ignored", .str "X", .str "Y"⟩)
      "https://www.reddit.com/r/LifeProTips.rss" (.num 0) (.num 0)
      = (.tup, .num 0, .num 0)
    ∧ get_feed_data (fun _ _ => ⟨304, "ignored", .str "X", .str "Y"⟩)
        (fun _ => ⟨none, []⟩) (fun _ => none) []
        "https://www.reddit.com/r/LifeProTips.rss"
        = ⟨.ok (.obj []), [], ⟨true, false, 0, false⟩⟩ :=
  xrss_c4_not_modified _ _ _ _ _ _ _ _ (by rfl) (by rfl) (by rfl)

/-! ### C7: category extraction -/

/-- **C7**: `https://www.reddit.com/r/LifeProTips.rss` maps to category
`LifeProTips`, and any URL the pattern does not match makes the sync fail
with the configuration error (the `AttributeError` of `match.group` on a
failed match) before any fetch, parse, translation or write. -/
theorem xrss_c7_category_extraction :
    get_category_from_url "https://www.reddit.com/r/LifeProTips.rss"
      = .ok "LifeProTips"
    ∧ ∀ url, matchCategory url = none →
        get_category_from_url url = .error .configurationError
        ∧ ∀ (net : Net) (parse : Parser) (translate : Translate) (fs : FS),
            get_feed_data net parse translate fs url
              = ⟨.error .configurationError, fs, ⟨false, false, 0, false⟩⟩ := by
  refine ⟨by rfl, fun url h => ?_⟩
  have hc : get_category_from_url url = .error .configurationError := by
    unfold get_category_from_url
    rw [h]
  refine ⟨hc, fun net parse translate fs => ?_⟩
  have hl : load_config fs url = .error .configurationError := by
    simp [load_config, get_config_path, hc, exceptMap_error, exceptBind_error]
  unfold get_feed_data
  rw [hl]

/-- Witness for C7 at the non-matching URL `"notaurl"`. -/
theorem xrss_c7_witness :
    get_category_from_url "notaurl" = .error .configurationError
    ∧ get_feed_data (fun _ _ => ⟨200, "b", .null, .null⟩) (fun _ => ⟨none, []⟩)
        (fun _ => none) [] "notaurl"
        = ⟨.error .configurationError, [], ⟨false, false, 0, false⟩⟩ :=
  ⟨(xrss_c7_category_extraction.2 "notaurl" (by rfl)).1,
   (xrss_c7_category_extraction.2 "notaurl" (by rfl)).2 _ _ _ _⟩

/-! ### C8: persistence round-trip -/

/-- **C8**: saving a record and loading it again for the same URL gives
back identical `lastModified`, `etag` and `entriesByLabel`. -/
theorem xrss_c8_save_load_roundtrip (fs fs' : FS) (url : String)
    (lm etag pd : Json)
    (hsave : save_config fs url lm etag pd = .ok fs') :
    load_config fs' url = .ok (pd, (lm, etag)) := by
  cases hpath : get_config_path url with
  | error e =>
      rw [save_config, hpath] at hsave
      exact Except.noConfusion hsave
  | ok path =>
      rw [save_config, hpath] at hsave
      simp only [exceptBind_ok, exceptPure, Except.ok.injEq] at hsave
      subst hsave
      simp [load_config, hpath, exceptBind_ok, exceptPure, alGet_alSet, alGet]

/-- Witness for C8: a concrete record survives the round-trip. -/
theorem xrss_c8_witness :
    load_config
      (alSet ([] : FS) "Data/LifeProTips.json"
        (.obj [("last_modified", .str "Wed"), ("etag", .str "E1"),
          ("post_dict", .obj [("r/LifeProTips", .arr [])])]))
      "https://www.reddit.com/r/LifeProTips.rss"
      = .ok (.obj [("r/LifeProTips", .arr [])], (.str "Wed", .str "E1")) :=
  xrss_c8_save_load_roundtrip [] _ "https://www.reddit.com/r/LifeProTips.rss"
    (.str "Wed") (.str "E1") (.obj [("r/LifeProTips", .arr [])]) (by rfl)

/-! ### C10: records with missing keys -/

/-- **C10**: a record whose content is a JSON object missing any of
`last_modified`, `etag` or `post_dict` is not treated as structurally
invalid: `load_config` succeeds, giving `None` for each missing validator
and the empty mapping for a missing `post_dict`. -/
theorem xrss_c10_missing_keys_tolerated (fs : FS) (url path : String)
    (kvs : List (String × Json))
    (hpath : get_config_path url = .ok path)
    (hfile : alGet fs path = some (.obj kvs)) :
    load_config fs url
      = .ok ((alGet kvs "post_dict").getD (.obj []),
          ((alGet kvs "last_modified").getD .null,
           (alGet kvs "etag").getD .null))
    ∧ (alGet kvs "last_modified" = none →
        (alGet kvs "last_modified").getD .null = Json.null)
    ∧ (alGet kvs "etag" = none →
        (alGet kvs "etag").getD .null = Json.null)
    ∧ (alGet kvs "post_dict" = none →
        (alGet kvs "post_dict").getD (.obj []) = Json.obj []) := by
  refine ⟨?_, fun h => by rw [h]; rfl, fun h => by rw [h]; rfl,
    fun h => by rw [h]; rfl⟩
  simp [load_config, hpath, hfile, exceptBind_ok, exceptPure]

/-- Witness for C10: a record that is the empty JSON object loads as an
empty cache with absent validators. -/
theorem xrss_c10_witness :
    load_config [("Data/LifeProTips.json", Json.obj [])]
      "https://www.reddit.com/r/LifeProTips.rss"
      = .ok (.obj [], (.null, .null)) :=
  (xrss_c10_missing_keys_tolerated [("Data/LifeProTips.json", Json.obj [])]
    "https://www.reddit.com/r/LifeProTips.rss" "Data/LifeProTips.json" []
    (by rfl) (by rfl)).1

/-! ### C5: partial aggregation -/

/-- Modelled from the spec: the `entriesByLabel` mappings of the syncs
that succeeded, in merge order. -/
def okDicts : List (Except Err Json) → List (List (String × Json))
  | [] => []
  | .ok (.obj kvs) :: rs => kvs :: okDicts rs
  | _ :: rs => okDicts rs

/-- Modelled from the spec: lookup in the merged mapping where a later
feed's binding for a colliding label overwrites an earlier one's (within
one mapping the rightmost binding wins, hence the `reverse`). -/
def mergedGet : List (List (String × Json)) → String → Option Json
  | [], _ => none
  | d :: ds, lbl =>
      match mergedGet ds lbl with
      | some v => some v
      | none => alGet d.reverse lbl

theorem alGet_alUpdate {α : Type} (acc d : List (String × α)) (lbl : String) :
    alGet (alUpdate acc d) lbl =
      match alGet d.reverse lbl with
      | some v => some v
      | none => alGet acc lbl := by
  induction d generalizing acc with
  | nil => simp [alUpdate, alGet]
  | cons hd d' ih =>
      obtain ⟨k, v⟩ := hd
      have hstep : alUpdate acc ((k, v) :: d') = alUpdate (alSet acc k v) d' := rfl
      rw [hstep, ih, List.reverse_cons, alGet_append]
      cases halg : alGet d'.reverse lbl with
      | some w => rfl
      | none =>
          rw [alGet_alSet]
          by_cases hk : lbl = k
          · subst hk; simp [alGet]
          · simp [alGet, hk, Ne.symm hk]

theorem alGet_foldl_mergeStep (rs : List (Except Err Json))
    (acc : List (String × Json)) (lbl : String) :
    alGet (rs.foldl mergeStep acc) lbl =
      match mergedGet (okDicts rs) lbl with
      | some v => some v
      | none => alGet acc lbl := by
  induction rs generalizing acc with
  | nil => simp [okDicts, mergedGet, alGet]
  | cons r rs' ih =>
      cases r with
      | error e => simpa [okDicts, mergeStep] using ih acc
      | ok j =>
          cases j with
          | obj kvs =>
              rw [List.foldl_cons]
              have hstep : mergeStep acc (.ok (.obj kvs)) = alUpdate acc kvs := rfl
              rw [hstep, ih]
              cases hm : mergedGet (okDicts rs') lbl with
              | some w => simp [okDicts, mergedGet, hm]
              | none =>
                  rw [alGet_alUpdate]
                  cases hk : alGet kvs.reverse lbl <;>
                    simp [okDicts, mergedGet, hm, hk]
          | null => simpa [okDicts, mergeStep] using ih acc
          | bool b => simpa [okDicts, mergeStep] using ih acc
          | num n => simpa [okDicts, mergeStep] using ih acc
          | str s => simpa [okDicts, mergeStep] using ih acc
          | arr xs => simpa [okDicts, mergeStep] using ih acc

/-- **C5**: `get_all_feeds` is a total function into a mapping (nothing
escapes as an exception): the syncs run with exceptions captured, the
result is the merge of the successful syncs' mappings only, and for every
label the merged mapping holds exactly the value contributed by the last
successful sync whose mapping binds that label (later feeds overwrite
earlier ones on collision); failed syncs contribute nothing. -/
theorem xrss_c5_partial_aggregation (net : Net) (parse : Parser)
    (translate : Translate) (fs : FS) (urls : List String) :
    (get_all_feeds net parse translate fs urls).1
      = .obj (mergeResults (runSyncs net parse translate fs urls).1)
    ∧ ∀ lbl, alGet (mergeResults (runSyncs net parse translate fs urls).1) lbl
        = mergedGet (okDicts (runSyncs net parse translate fs urls).1) lbl := by
  constructor
  · rcases hr : runSyncs net parse translate fs urls with ⟨rs, fs2⟩
    simp [get_all_feeds, hr]
  · intro lbl
    rw [mergeResults, alGet_foldl_mergeStep]
    cases hm : mergedGet (okDicts (runSyncs net parse translate fs urls).1) lbl <;>
      simp [alGet]

/-! ### Entry construction lemmas (shared by the translation and
timestamp claims) -/

/-- Whether an item's title is a string
(`isinstance(entry.title, str)`). -/
def isStrTitle (e : Item) : Bool :=
  match e.title with
  | .str _ => true
  | _ => false

/-- The title the built entry carries: a string title becomes its
translation when translation succeeds and stays verbatim when it fails; a
non-string title is passed through unchanged. -/
def entryTitle (translate : Translate) (e : Item) : Json :=
  match e.title with
  | .str s => .str ((translate s).getD s)
  | t => t

theorem build_entry_ok (translate : Translate) (e : Item) (dt : PyDateTime)
    (hdt : fromisoformat e.updated = some dt) :
    build_entry translate e
      = (.ok (.obj [("title", entryTitle translate e),
          ("updated", .str (pyStrftime dt)), ("link", e.link)]),
         if isStrTitle e then 1 else 0) := by
  obtain ⟨t, upd, lnk⟩ := e
  simp only at hdt ⊢
  cases t with
  | str s =>
      cases hts : translate s <;>
        simp [build_entry, entryTitle, isStrTitle, hdt, hts]
  | null => simp [build_entry, entryTitle, isStrTitle, hdt]
  | bool b => simp [build_entry, entryTitle, isStrTitle, hdt]
  | num n => simp [build_entry, entryTitle, isStrTitle, hdt]
  | arr xs => simp [build_entry, entryTitle, isStrTitle, hdt]
  | obj kvs => simp [build_entry, entryTitle, isStrTitle, hdt]

theorem build_entry_fatal (translate : Translate) (e : Item)
    (hdt : fromisoformat e.updated = none) :
    (build_entry translate e).1 = .error .parseError := by
  obtain ⟨t, upd, lnk⟩ := e
  simp only at hdt ⊢
  cases t <;> simp [build_entry, hdt]

theorem build_post_list_sound (translate : Translate) (items : List Item)
    (h : ∀ e ∈ items, (fromisoformat e.updated).isSome) :
    ∃ l, build_post_list translate items
        = (.ok l, items.countP (fun e => isStrTitle e))
      ∧ List.Forall₂ (fun e j => (build_entry translate e).1 = .ok j) items l := by
  induction items with
  | nil => exact ⟨[], rfl, .nil⟩
  | cons e rest ih =>
      obtain ⟨dt, hdt⟩ :=
        Option.isSome_iff_exists.mp (h e (List.mem_cons_self e rest))
      obtain ⟨l, hl, hall⟩ := ih (fun e' he' => h e' (List.mem_cons_of_mem _ he'))
      refine ⟨.obj [("title", entryTitle translate e),
        ("updated", .str (pyStrftime dt)), ("link", e.link)] :: l, ?_, ?_⟩
      · rw [build_post_list, build_entry_ok translate e dt hdt, hl]
        simp [List.countP_cons, isStrTitle]
        exact ⟨rfl, Nat.add_comm _ _⟩
      · exact .cons (by rw [build_entry_ok translate e dt hdt]) hall

theorem build_post_list_fatal (translate : Translate) (items : List Item)
    (h : ∃ e ∈ items, fromisoformat e.updated = none) :
    (build_post_list translate items).1 = .error .parseError := by
  induction items with
  | nil => obtain ⟨e, he, _⟩ := h; exact absurd he (List.not_mem_nil e)
  | cons e rest ih =>
      cases hdt : fromisoformat e.updated with
      | none =>
          have hbe := build_entry_fatal translate e hdt
          rcases hb : build_entry translate e with ⟨r, n⟩
          rw [hb] at hbe
          simp only at hbe
          subst hbe
          rw [build_post_list, hb]
      | some dt =>
          obtain ⟨e', he', hbad⟩ := h
          rcases List.mem_cons.mp he' with rfl | hmem
          · rw [hdt] at hbad; exact Option.noConfusion hbad
          · have hrest := ih ⟨e', hmem, hbad⟩
            rw [build_post_list, build_entry_ok translate e dt hdt]
            rcases hr : build_post_list translate rest with ⟨r2, n2⟩
            rw [hr] at hrest
            simp only at hrest
            subst hrest
            rfl

theorem build_post_list_forall2 (translate : Translate) (items : List Item)
    (l : List Json) (h : (build_post_list translate items).1 = .ok l) :
    List.Forall₂ (fun e j => (build_entry translate e).1 = .ok j) items l := by
  induction items generalizing l with
  | nil =>
      simp only [build_post_list] at h
      cases h
      exact .nil
  | cons e rest ih =>
      rw [build_post_list] at h
      rcases hb : build_entry translate e with ⟨r, n⟩
      rw [hb] at h
      cases r with
      | error err => exact Except.noConfusion h
      | ok j =>
          rcases hr : build_post_list translate rest with ⟨r2, n2⟩
          rw [hr] at h
          cases r2 with
          | error err => exact Except.noConfusion h
          | ok l' =>
              simp only [Except.map, Except.ok.injEq] at h
              subst h
              exact .cons (by rw [hb]) (ih l' (by rw [hr]))

/-- The `Modified` path of `get_feed_data` in one step: given a cold,
well-formed cache (`{}` with some validators), a non-304 response with a
non-empty body, the sync parses the body, builds the labelled entry list,
and — when building succeeds — persists and returns it. -/
theorem get_feed_data_modified (net : Net) (parse : Parser)
    (translate : Translate) (fs : FS) (url path : String) (lm etag : Json)
    (s : String) (pf : ParsedFeed)
    (hpath : get_config_path url = .ok path)
    (hload : load_config fs url = .ok (.obj [], (lm, etag)))
    (hnm : (net url (condHeaders lm etag)).status ≠ 304)
    (hbody : (net url (condHeaders lm etag)).body = s)
    (hne : s.isEmpty = false)
    (hpf : parse s = pf) :
    get_feed_data net parse translate fs url =
      match build_post_list translate pf.entries with
      | (.error e, calls) => ⟨.error e, fs, ⟨true, true, calls, false⟩⟩
      | (.ok post_list, calls) =>
          ⟨.ok (.obj [(feedLabel pf, .arr post_list)]),
           alSet fs path (.obj
             [("last_modified", (net url (condHeaders lm etag)).lastModified),
              ("etag", (net url (condHeaders lm etag)).etag),
              ("post_dict", .obj [(feedLabel pf, .arr post_list)])]),
           ⟨true, true, calls, true⟩⟩ := by
  have hfetch : fetch_feed_data net url lm etag
      = (.body s, (net url (condHeaders lm etag)).lastModified,
         (net url (condHeaders lm etag)).etag) := by
    unfold fetch_feed_data
    simp [hnm, hbody]
  unfold get_feed_data
  rw [hload]
  simp only [truthy, List.isEmpty_nil, Bool.not_true, Bool.false_eq_true,
    if_false, hfetch]
  rw [hpf]
  simp only [hne, Bool.false_eq_true, if_false]
  rcases hbp : build_post_list translate pf.entries with ⟨r, calls⟩
  cases r with
  | error e => rfl
  | ok post_list =>
      simp only [pySetItem, alSet]
      rw [save_config, hpath]
      rfl

/-! ### C6: translation fallback -/

/-- **C6**: with a cold, well-formed cache, a modified response and items
whose timestamps all parse, the sync completes successfully whatever the
translator does, and translation is attempted exactly once per
string-titled item; a string title whose translation fails keeps its
original text, and a non-string title is passed through unchanged with no
translation attempt. -/
theorem xrss_c6_translation_fallback :
    (∀ (net : Net) (parse : Parser) (translate : Translate) (fs : FS)
        (url path : String) (lm etag : Json) (s : String),
      get_config_path url = .ok path →
      load_config fs url = .ok (.obj [], (lm, etag)) →
      (net url (condHeaders lm etag)).status ≠ 304 →
      (net url (condHeaders lm etag)).body = s →
      s.isEmpty = false →
      (∀ e ∈ (parse s).entries, (fromisoformat e.updated).isSome) →
      (∃ pd', (get_feed_data net parse translate fs url).result = .ok pd')
      ∧ (get_feed_data net parse translate fs url).trace.translated
          = (parse s).entries.countP (fun e => isStrTitle e))
    ∧ (∀ (translate : Translate) (e : Item) (s : String) (dt : PyDateTime),
        e.title = .str s → translate s = none →
        fromisoformat e.updated = some dt →
        build_entry translate e
          = (.ok (.obj [("title", .str s),
              ("updated", .str (pyStrftime dt)), ("link", e.link)]), 1))
    ∧ (∀ (translate : Translate) (e : Item) (dt : PyDateTime),
        isStrTitle e = false →
        fromisoformat e.updated = some dt →
        build_entry translate e
          = (.ok (.obj [("title", e.title),
              ("updated", .str (pyStrftime dt)), ("link", e.link)]), 0)) := by
  refine ⟨?_, ?_, ?_⟩
  · intro net parse translate fs url path lm etag s hpath hload hnm hbody hne htimes
    obtain ⟨l, hl, hall⟩ := build_post_list_sound translate (parse s).entries htimes
    have hmod := get_feed_data_modified net parse translate fs url path lm etag
      s (parse s) hpath hload hnm hbody hne rfl
    rw [hl] at hmod
    exact ⟨⟨_, by rw [hmod]⟩, by rw [hmod]⟩
  · intro translate e s dt htitle htr hdt
    rw [build_entry_ok translate e dt hdt]
    simp [entryTitle, isStrTitle, htitle, htr]
  · intro translate e dt hstr hdt
    rw [build_entry_ok translate e dt hdt]
    cases he : e.title with
    | str s => simp [isStrTitle, he] at hstr
    | null => simp [entryTitle, isStrTitle, he]
    | bool b => simp [entryTitle, isStrTitle, he]
    | num n => simp [entryTitle, isStrTitle, he]
    | arr xs => simp [entryTitle, isStrTitle, he]
    | obj kvs => simp [entryTitle, isStrTitle, he]

/-- Witness for C6: a feed with one string-titled item whose translation
fails and one number-titled item syncs successfully with exactly one
translation attempt; the failed translation keeps `"hello"`, the number
title passes through. -/
theorem xrss_c6_witness :
    (∃ pd', (get_feed_data (fun _ _ => ⟨200, "BODY", .str "Wed", .str "E"⟩)
      (fun _ => ⟨some "LifeProTips",
        [⟨.str "hello", "2024-01-05T13:04:05+00:00", .str "l1"⟩,
         ⟨.num 7, "2024-01-06", .str "l2"⟩]⟩)
      (fun _ => none) [] "https://www.reddit.com/r/LifeProTips.rss").result
      = .ok pd')
    ∧ (get_feed_data (fun _ _ => ⟨200, "BODY", .str "Wed", .str "E"⟩)
      (fun _ => ⟨some "LifeProTips",
        [⟨.str "hello", "2024-01-05T13:04:05+00:00", .str "l1"⟩,
         ⟨.num 7, "2024-01-06", .str "l2"⟩]⟩)
      (fun _ => none) [] "https://www.reddit.com/r/LifeProTips.rss").trace.translated
      = 1
    ∧ build_entry (fun _ => none)
        ⟨.str "hello", "2024-01-05T13:04:05+00:00", .str "l1"⟩
        = (.ok (.obj [("title", .str "hello"),
            ("updated", .str "2024/01/05 13:04:05"), ("link", .str "l1")]), 1)
    ∧ build_entry (fun _ => none) ⟨.num 7, "2024-01-06", .str "l2"⟩
        = (.ok (.obj [("title", .num 7),
            ("updated", .str "2024/01/06 00:00:00"), ("link", .str "l2")]), 0) :=
  ⟨(xrss_c6_translation_fallback.1 _ _ _ [] _ "Data/LifeProTips.json"
      (.num 0) (.num 0) "BODY" (by rfl) (by rfl) (by decide) rfl rfl
      (by decide)).1,
   (xrss_c6_translation_fallback.1 _ _ _ [] _ "Data/LifeProTips.json"
      (.num 0) (.num 0) "BODY" (by rfl) (by rfl) (by decide) rfl rfl
      (by decide)).2,
   xrss_c6_translation_fallback.2.1 (fun _ => none)
      ⟨.str "hello", "2024-01-05T13:04:05+00:00", .str "l1"⟩ "hello"
      ⟨2024, 1, 5, 13, 4, 5⟩ rfl rfl rfl,
   xrss_c6_translation_fallback.2.2 (fun _ => none)
      ⟨.num 7, "2024-01-06", .str "l2"⟩ ⟨2024, 1, 6, 0, 0, 0⟩ rfl rfl⟩

/-! ### C9: timestamp formatting, fatal timestamps, order -/

/-- **C9**: an item updated at `2024-01-05T13:04:05+00:00` yields an entry
updated at `2024/01/05 13:04:05`; an item whose `updated` is unparseable
is fatal for its feed's sync (the sync errors, nothing is persisted); and
a successfully built entry list corresponds to the source items one to
one, in source order. -/
theorem xrss_c9_timestamp_format_and_order :
    (∀ (translate : Translate) (e : Item),
        e.updated = "2024-01-05T13:04:05+00:00" →
        ∃ t n, build_entry translate e
          = (.ok (.obj [("title", t), ("updated", .str "2024/01/05 13:04:05"),
              ("link", e.link)]), n))
    ∧ (∀ (net : Net) (parse : Parser) (translate : Translate) (fs : FS)
          (url path : String) (lm etag : Json) (s : String),
        get_config_path url = .ok path →
        load_config fs url = .ok (.obj [], (lm, etag)) →
        (net url (condHeaders lm etag)).status ≠ 304 →
        (net url (condHeaders lm etag)).body = s →
        s.isEmpty = false →
        (∃ e ∈ (parse s).entries, fromisoformat e.updated = none) →
        ∃ calls, get_feed_data net parse translate fs url
          = ⟨.error .parseError, fs, ⟨true, true, calls, false⟩⟩)
    ∧ (∀ (translate : Translate) (items : List Item) (l : List Json),
        (build_post_list translate items).1 = .ok l →
        List.Forall₂ (fun e j => (build_entry translate e).1 = .ok j) items l) := by
  refine ⟨?_, ?_, ?_⟩
  · intro translate e hupd
    have hdt : fromisoformat e.updated = some ⟨2024, 1, 5, 13, 4, 5⟩ := by
      rw [hupd]; rfl
    exact ⟨entryTitle translate e, if isStrTitle e then 1 else 0,
      by rw [build_entry_ok translate e _ hdt]; rfl⟩
  · intro net parse translate fs url path lm etag s hpath hload hnm hbody hne hbad
    have hfat := build_post_list_fatal translate (parse s).entries hbad
    have hmod := get_feed_data_modified net parse translate fs url path lm etag
      s (parse s) hpath hload hnm hbody hne rfl
    rcases hbp : build_post_list translate (parse s).entries with ⟨r, calls⟩
    rw [hbp] at hfat hmod
    simp only at hfat
    subst hfat
    exact ⟨calls, hmod⟩
  · exact fun translate items l h => build_post_list_forall2 translate items l h

/-- Witness for C9: the sample timestamp formats as stated, a feed with an
unparseable `updated` fails its sync with the parse error and persists
nothing, and a one-item feed builds a one-entry list in order. -/
theorem xrss_c9_witness :
    (∃ t n, build_entry (fun _ => none)
        ⟨.null, "2024-01-05T13:04:05+00:00", .str "LNK"⟩
        = (.ok (.obj [("title", t), ("updated", .str "2024/01/05 13:04:05"),
            ("link", .str "LNK")]), n))
    ∧ (∃ calls, get_feed_data (fun _ _ => ⟨200, "B", .null, .null⟩)
        (fun _ => ⟨none, [⟨.str "x", "bad", .null⟩]⟩) (fun _ => none) []
        "https://www.reddit.com/r/LifeProTips.rss"
        = ⟨.error .parseError, [], ⟨true, true, calls, false⟩⟩)
    ∧ List.Forall₂ (fun e j => (build_entry (fun _ => none) e).1 = .ok j)
        [⟨.str "a", "2024-01-05", .null⟩]
        [.obj [("title", .str "a"), ("updated", .str "2024/01/05 00:00:00"),
          ("link", .null)]] :=
  ⟨xrss_c9_timestamp_format_and_order.1 (fun _ => none)
      ⟨.null, "2024-01-05T13:04:05+00:00", .str "LNK"⟩ rfl,
   xrss_c9_timestamp_format_and_order.2.1 _ _ _ [] _ "Data/LifeProTips.json"
      (.num 0) (.num 0) "B" (by rfl) (by rfl) (by decide) rfl rfl
      ⟨⟨.str "x", "bad", .null⟩, List.mem_cons_self _ _, rfl⟩,
   xrss_c9_timestamp_format_and_order.2.2 (fun _ => none)
      [⟨.str "a", "2024-01-05", .null⟩]
      [.obj [("title", .str "a"), ("updated", .str "2024/01/05 00:00:00"),
        ("link", .null)]] (by rfl)⟩

end XRSS
